import Mathlib

/-!
Verification of the LZA account-creation workflow (aws-samples/lza-account-creation-workflow).

This file shallowly embeds the Python functions the claims are about:

* `generate_sf_exec_name` (src/app/lambda_src/api/RunStepFunction/main.py) — the
  Step Function execution namer;
* `update_account_config_file` and `validate_ou_in_config`
  (src/app/lambda_src/stepfunction/CreateAccount/helper.py) — the accounts-config
  merge engine and placement validation;
* the validation-status aggregation of `lambda_handler`
  (src/app/lambda_src/stepfunction/ValidateResources/main.py);
* `HelperCodePipeline.status` (src/app/lambda_src/stepfunction/CreateAccount/helper.py) —
  the CodePipeline status poller with its not-found retry loop;
* `get_service_catalog_info` (src/app/lambda_src/stepfunction/GetAccountStatus/main.py);
* the wait-count loop of `lambda_handler`
  (src/app/lambda_src/stepfunction/ValidateAdGroupSyncToSSO/main.py);
* the exception-wrapping boundary and the Respond state
  (src/app/lambda_src/stepfunction/ReturnResponse/main.py,
   src/app/lambda_src/stepfunction/CheckForRunningProcesses/main.py).

Python exceptions are modelled with `Except`; file read-modify-write is modelled by a
function from the old document to the new one, an exception leaving the document as it
was (the source raises before reaching the write call).
-/

namespace LzaWorkflow

/-- Mirrors the character-by-character test that a list is an initial segment of
another, the building block of Python's substring operator `in`. -/
def startsWithL : List Char → List Char → Bool
  | [], _ => true
  | _ :: _, [] => false
  | a :: as, b :: bs => a == b && startsWithL as bs

/-- Python substring containment `needle in hay`, expressed on the character lists:
`needle` occurs starting at some position of `hay`. -/
def containsSubL (needle : List Char) (hay : List Char) : Bool :=
  match hay with
  | [] => needle.isEmpty
  | _ :: t => startsWithL needle hay || containsSubL needle t

/-- Python `needle in hay` on strings, as used by `generate_sf_exec_name`. -/
def strContains (hay needle : String) : Bool :=
  containsSubL needle.toList hay.toList

/-- Python `str.zfill(width)`: left-pad with `'0'` to at least `width` characters.
The namer only applies it to decimal representations of counts, never to signed text. -/
def zfill (s : String) (width : Nat) : String :=
  if width ≤ s.length then s else String.mk (List.replicate (width - s.length) '0') ++ s

/-- Loop of `generate_sf_exec_name`: how many existing execution names contain
`account_name` as a substring (Python `if account_name in ex['name']: count += 1`). -/
def sf_exec_count (account_name : String) (execution_names : List String) : Nat :=
  (execution_names.filter (fun n => strContains n account_name)).length

/-- Embedding of `generate_sf_exec_name` (RunStepFunction/main.py, lines 17–52).
The paginated `list_executions` call is abstracted to the list of existing
execution names. -/
def generate_sf_exec_name (account_name : String) (execution_names : List String) : String :=
  let count := sf_exec_count account_name execution_names
  if count > 0 then account_name ++ "-" ++ zfill (toString count) 2
  else account_name

theorem startsWithL_refl (l : List Char) : startsWithL l l = true := by
  induction l with
  | nil => rfl
  | cons a as ih => simp [startsWithL, ih]

theorem containsSubL_refl (l : List Char) : containsSubL l l = true := by
  cases l with
  | nil => rfl
  | cons a as => simp [containsSubL, startsWithL_refl]

theorem strContains_refl (s : String) : strContains s s = true :=
  containsSubL_refl s.toList

theorem sf_exec_count_zero_not_mem {B : String} {S : List String}
    (h : sf_exec_count B S = 0) : B ∉ S := by
  intro hBmem
  have hfil : (S.filter (fun n => strContains n B)).length = 0 := h
  rw [List.length_eq_zero] at hfil
  have := List.filter_eq_nil_iff.mp hfil B hBmem
  simp [strContains_refl] at this

/-- C1 counterexample: with base name `"Finance"` and existing-name set
`["Finance-01"]`, the base name is not in the set, yet `generate_sf_exec_name`
returns `"Finance-01"`, which IS in the set — refuting both "the returned name is
never in S" and "if B is not in S the result is B". -/
theorem generate_sf_exec_name_claim_counterexample :
    "Finance" ∉ ["Finance-01"] ∧
    generate_sf_exec_name "Finance" ["Finance-01"] ∈ ["Finance-01"] := by decide

/-- C1 (amended): `generate_sf_exec_name` counts the existing names containing the
base name as a substring; when that count is zero it returns the base name verbatim,
and then the base name was not among the existing names and neither is the result;
when the count is positive it returns the base name with a zero-padded two-digit
suffix equal to the count appended, a name that always differs from the base name
(but may coincide with an existing name). -/
theorem generate_sf_exec_name_spec (B : String) (S : List String) :
    (sf_exec_count B S = 0 →
      generate_sf_exec_name B S = B ∧ B ∉ S ∧ generate_sf_exec_name B S ∉ S)
  ∧ (0 < sf_exec_count B S →
      generate_sf_exec_name B S = B ++ "-" ++ zfill (toString (sf_exec_count B S)) 2 ∧
      generate_sf_exec_name B S ≠ B) := by
  constructor
  · intro h0
    have hname : generate_sf_exec_name B S = B := by
      simp [generate_sf_exec_name, h0]
    refine ⟨hname, sf_exec_count_zero_not_mem h0, ?_⟩
    rw [hname]
    exact sf_exec_count_zero_not_mem h0
  · intro hpos
    have hname : generate_sf_exec_name B S
        = B ++ "-" ++ zfill (toString (sf_exec_count B S)) 2 := by
      simp [generate_sf_exec_name, hpos]
    refine ⟨hname, ?_⟩
    intro heq
    have hlen := congrArg String.length (hname.symm.trans heq)
    rw [String.length_append, String.length_append] at hlen
    have hdash : ("-" : String).length = 1 := rfl
    omega

/-- C1 witness: both branches of `generate_sf_exec_name_spec` instantiated — the
empty existing set returns `"Finance"` itself, and an existing run named
`"Finance"` forces a suffixed name different from `"Finance"`. -/
theorem generate_sf_exec_name_spec_witness :
    (generate_sf_exec_name "Finance" [] = "Finance" ∧ "Finance" ∉ ([] : List String) ∧
      generate_sf_exec_name "Finance" [] ∉ ([] : List String)) ∧
    (generate_sf_exec_name "Finance" ["Finance"]
        = "Finance" ++ "-" ++ zfill (toString (sf_exec_count "Finance" ["Finance"])) 2 ∧
      generate_sf_exec_name "Finance" ["Finance"] ≠ "Finance") :=
  ⟨(generate_sf_exec_name_spec "Finance" []).1 (by decide),
   (generate_sf_exec_name_spec "Finance" ["Finance"]).2 (by decide)⟩

/-- One entry of the `workloadAccounts` list of the LZA accounts-config document,
with the four keys `update_account_config_file` writes. -/
structure AccountConfigEntry where
  name : String
  description : String
  email : String
  organizationalUnit : String
deriving DecidableEq, Repr

/-- The fields of the `account_info` dict that `update_account_config_file` reads. -/
structure AccountInfo where
  AccountName : String
  AccountEmail : String
  ManagedOrganizationalUnit : String
deriving DecidableEq, Repr

/-- The accounts-config YAML document: its `workloadAccounts` list plus all the
other top-level keys, which the merge loads and dumps untouched. -/
structure AccountConfig where
  workloadAccounts : List AccountConfigEntry
  otherTopLevel : List (String × String)
deriving DecidableEq, Repr

/-- Exception raised by `update_account_config_file` on a duplicate name without
force update (`MatchingAccountNameInConfigException` in helper.py). -/
inductive MergeError where
  | MatchingAccountNameInConfigException (name : String)
deriving DecidableEq, Repr

/-- The `config_info` dict built by `update_account_config_file` from `account_info`. -/
def config_info_of (account_info : AccountInfo) : AccountConfigEntry :=
  { name := account_info.AccountName
    description := account_info.AccountName
    email := account_info.AccountEmail
    organizationalUnit := account_info.ManagedOrganizationalUnit }

/-- The `for index, item in enumerate(...)` loop of `update_account_config_file`:
`i` is the current index, `acc` the running `update_index` (initially `-1`); the
loop keeps the index of the LAST entry whose `name` matches. -/
def update_index_loop (accounts : List AccountConfigEntry) (nm : String) (i : Nat) (acc : Int) :
    Int :=
  match accounts with
  | [] => acc
  | item :: rest => update_index_loop rest nm (i + 1) (if item.name = nm then (i : Int) else acc)

/-- The `update_index` value computed by `update_account_config_file`. -/
def update_index (accounts : List AccountConfigEntry) (nm : String) : Int :=
  update_index_loop accounts nm 0 (-1)

/-- Embedding of `update_account_config_file` (CreateAccount/helper.py, lines 164–205).
The YAML read is abstracted to the in-memory `AccountConfig`; the three branches
mirror the `if / elif / else` on `update_index` and `force_update`; raising is the
`Except.error` result, which in the source happens before the file write. -/
def update_account_config_file (account_config : AccountConfig) (account_info : AccountInfo)
    (force_update : Bool) : Except MergeError AccountConfig :=
  let config_info := config_info_of account_info
  let idx := update_index account_config.workloadAccounts config_info.name
  if 0 ≤ idx ∧ force_update = true then
    Except.ok { account_config with
      workloadAccounts := account_config.workloadAccounts.set idx.toNat config_info }
  else if 0 ≤ idx ∧ force_update = false then
    Except.error (MergeError.MatchingAccountNameInConfigException config_info.name)
  else
    Except.ok { account_config with
      workloadAccounts := account_config.workloadAccounts ++ [config_info] }

/-- Content of the config file after a call to `update_account_config_file`: the
new document on success, the untouched old document when the call raised (the
source raises before `open(path_to_file, 'w')`, so nothing is written). -/
def merge_result_file (file : AccountConfig) (account_info : AccountInfo)
    (force_update : Bool) : AccountConfig :=
  match update_account_config_file file account_info force_update with
  | Except.ok newFile => newFile
  | Except.error _ => file

/-- Position `k` holds the last entry of `l` named `nm`. -/
def IsLastMatch (l : List AccountConfigEntry) (nm : String) (k : Nat) : Prop :=
  (∃ e, l[k]? = some e ∧ e.name = nm) ∧
    ∀ j e, k < j → l[j]? = some e → e.name ≠ nm

theorem update_index_loop_no_match {l : List AccountConfigEntry} {nm : String}
    (h : ∀ e ∈ l, e.name ≠ nm) (i : Nat) (acc : Int) :
    update_index_loop l nm i acc = acc := by
  induction l generalizing i acc with
  | nil => rfl
  | cons item rest ih =>
    have hitem : item.name ≠ nm := h item (List.mem_cons_self _ _)
    simp only [update_index_loop, if_neg hitem]
    exact ih (fun e he => h e (List.mem_cons_of_mem _ he)) _ _

theorem update_index_loop_last_match {l : List AccountConfigEntry} {nm : String} {k : Nat}
    (h : IsLastMatch l nm k) (i : Nat) (acc : Int) :
    update_index_loop l nm i acc = (i : Int) + (k : Int) := by
  induction l generalizing i acc k with
  | nil =>
    obtain ⟨⟨e, he, _⟩, _⟩ := h
    simp at he
  | cons item rest ih =>
    obtain ⟨⟨e, he, hename⟩, hafter⟩ := h
    cases k with
    | zero =>
      simp only [List.getElem?_cons_zero, Option.some.injEq] at he
      subst he
      have hrest : ∀ e' ∈ rest, e'.name ≠ nm := by
        intro e' he'
        obtain ⟨j, hj, hget⟩ := List.getElem_of_mem he'
        refine hafter (j + 1) e' (Nat.succ_pos j) ?_
        rw [List.getElem?_cons_succ, List.getElem?_eq_getElem hj, hget]
      simp only [update_index_loop, if_pos hename]
      rw [update_index_loop_no_match hrest]
      simp
    | succ k' =>
      have hlm : IsLastMatch rest nm k' := by
        refine ⟨⟨e, by simpa using he, hename⟩, ?_⟩
        intro j e' hj hget
        exact hafter (j + 1) e' (Nat.succ_lt_succ hj) (by simpa using hget)
      simp only [update_index_loop]
      rw [ih hlm]
      push_cast
      ring

theorem exists_last_match {l : List AccountConfigEntry} {nm : String}
    (h : ∃ e ∈ l, e.name = nm) : ∃ k, IsLastMatch l nm k := by
  induction l with
  | nil => simp at h
  | cons item rest ih =>
    by_cases hrest : ∃ e ∈ rest, e.name = nm
    · obtain ⟨k', hlm⟩ := ih hrest
      refine ⟨k' + 1, ⟨?_, ?_⟩⟩
      · obtain ⟨e, he, hename⟩ := hlm.1
        exact ⟨e, by simpa using he, hename⟩
      · intro j e hj hget
        cases j with
        | zero => omega
        | succ j' => exact hlm.2 j' e (Nat.lt_of_succ_lt_succ hj) (by simpa using hget)
    · have hitem : item.name = nm := by
        obtain ⟨e, he, hename⟩ := h
        rcases List.mem_cons.mp he with rfl | hmem
        · exact hename
        · exact absurd ⟨e, hmem, hename⟩ hrest
      refine ⟨0, ⟨⟨item, by simp, hitem⟩, ?_⟩⟩
      intro j e hj hget hename
      cases j with
      | zero => omega
      | succ j' =>
        have hget' : rest[j']? = some e := by simpa using hget
        obtain ⟨hj', rfl⟩ := List.getElem?_eq_some.mp hget'
        exact hrest ⟨_, List.getElem_mem hj', hename⟩

theorem update_index_of_last_match {l : List AccountConfigEntry} {nm : String} {k : Nat}
    (h : IsLastMatch l nm k) : update_index l nm = (k : Int) := by
  unfold update_index
  rw [update_index_loop_last_match h]
  simp

theorem update_index_of_no_match {l : List AccountConfigEntry} {nm : String}
    (h : ∀ e ∈ l, e.name ≠ nm) : update_index l nm = -1 :=
  update_index_loop_no_match h 0 (-1)

theorem update_account_config_file_of_no_match {cfg : AccountConfig} {info : AccountInfo}
    (force : Bool) (h : ∀ e ∈ cfg.workloadAccounts, e.name ≠ info.AccountName) :
    update_account_config_file cfg info force =
      Except.ok { cfg with
        workloadAccounts := cfg.workloadAccounts ++ [config_info_of info] } := by
  have hidx : update_index cfg.workloadAccounts (config_info_of info).name = -1 :=
    update_index_of_no_match h
  simp [update_account_config_file, hidx]

theorem update_account_config_file_of_match_force {cfg : AccountConfig} {info : AccountInfo}
    {k : Nat} (h : IsLastMatch cfg.workloadAccounts info.AccountName k) :
    update_account_config_file cfg info true =
      Except.ok { cfg with
        workloadAccounts := cfg.workloadAccounts.set k (config_info_of info) } := by
  have hidx : update_index cfg.workloadAccounts (config_info_of info).name = (k : Int) :=
    update_index_of_last_match h
  simp [update_account_config_file, hidx]

theorem update_account_config_file_of_match_noforce {cfg : AccountConfig} {info : AccountInfo}
    {k : Nat} (h : IsLastMatch cfg.workloadAccounts info.AccountName k) :
    update_account_config_file cfg info false =
      Except.error (MergeError.MatchingAccountNameInConfigException info.AccountName) := by
  have hidx : update_index cfg.workloadAccounts info.AccountName = (k : Int) :=
    update_index_of_last_match h
  simp [update_account_config_file, config_info_of, hidx]

theorem set_concat_length {α : Type} (l : List α) (a b : α) :
    (l ++ [a]).set l.length b = l ++ [b] := by
  induction l with
  | nil => rfl
  | cons x xs ih => simp [List.set, ih]

theorem isLastMatch_concat {l : List AccountConfigEntry} {nm : String}
    {c : AccountConfigEntry} (hc : c.name = nm) : IsLastMatch (l ++ [c]) nm l.length := by
  constructor
  · exact ⟨c, by simp, hc⟩
  · intro j e hj hget
    have : (l ++ [c]).length ≤ j := by simp; omega
    rw [List.getElem?_eq_none this] at hget
    cases hget

theorem isLastMatch_set {l : List AccountConfigEntry} {nm : String} {k : Nat}
    {c : AccountConfigEntry} (h : IsLastMatch l nm k) (hc : c.name = nm) :
    IsLastMatch (l.set k c) nm k := by
  obtain ⟨⟨e, he, _⟩, hafter⟩ := h
  have hk : k < l.length := (List.getElem?_eq_some.mp he).1
  constructor
  · exact ⟨c, by simp [List.getElem?_set, hk], hc⟩
  · intro j e' hj hget
    refine hafter j e' hj ?_
    rwa [List.getElem?_set, if_neg (by omega)] at hget

/-- C2: merging an entry whose name already occurs in `workloadAccounts` with
`force_update = false` raises `MatchingAccountNameInConfigException`, and the
config file is left exactly as it was — the exception fires before the write, so
no partial update (in particular the old entry's organizational unit) survives. -/
theorem update_account_config_file_duplicate_rejected (cfg : AccountConfig)
    (info : AccountInfo)
    (h : ∃ e ∈ cfg.workloadAccounts, e.name = info.AccountName) :
    update_account_config_file cfg info false
      = Except.error (MergeError.MatchingAccountNameInConfigException info.AccountName) ∧
    merge_result_file cfg info false = cfg := by
  obtain ⟨k, hlm⟩ := exists_last_match h
  have herr := update_account_config_file_of_match_noforce hlm
  exact ⟨herr, by simp [merge_result_file, herr]⟩

/-- Existing config entry of the C2/C3/C10 scenario: account `"Finance"` in `"OldOU"`. -/
def sampleOldEntry : AccountConfigEntry :=
  { name := "Finance", description := "Finance"
    email := "finance@example.com", organizationalUnit := "OldOU" }

/-- Scenario document: one workload account plus an unrelated top-level key. -/
def sampleConfig : AccountConfig :=
  { workloadAccounts := [sampleOldEntry], otherTopLevel := [("homeRegion", "us-east-1")] }

/-- Scenario new entry: same account name, new organizational unit `"NewOU"`. -/
def sampleInfo : AccountInfo :=
  { AccountName := "Finance", AccountEmail := "finance@example.com"
    ManagedOrganizationalUnit := "NewOU" }

/-- C2 witness: the Finance/OldOU vs Finance/NewOU scenario — the merge with
`force_update = false` raises and the document still holds the OldOU entry. -/
theorem update_account_config_file_duplicate_rejected_witness :
    update_account_config_file sampleConfig sampleInfo false
      = Except.error (MergeError.MatchingAccountNameInConfigException "Finance") ∧
    merge_result_file sampleConfig sampleInfo false = sampleConfig :=
  update_account_config_file_duplicate_rejected sampleConfig sampleInfo
    ⟨sampleOldEntry, by decide⟩

/-- C3: with `force_update = true` the merge never raises, and it is idempotent —
merging the same entry a second time returns exactly the document produced by the
first merge; when the name was already present the matching entry is overwritten
in place, so the list keeps its length. -/
theorem update_account_config_file_force_idempotent (cfg : AccountConfig)
    (info : AccountInfo) :
    update_account_config_file cfg info true
      = Except.ok (merge_result_file cfg info true) ∧
    update_account_config_file (merge_result_file cfg info true) info true
      = Except.ok (merge_result_file cfg info true) ∧
    ((∃ e ∈ cfg.workloadAccounts, e.name = info.AccountName) →
      (merge_result_file cfg info true).workloadAccounts.length
        = cfg.workloadAccounts.length) := by
  by_cases hm : ∃ e ∈ cfg.workloadAccounts, e.name = info.AccountName
  · obtain ⟨k, hlm⟩ := exists_last_match hm
    have h1 := update_account_config_file_of_match_force hlm
    have hD' : merge_result_file cfg info true
        = { cfg with workloadAccounts := cfg.workloadAccounts.set k (config_info_of info) } := by
      simp [merge_result_file, h1]
    have hlm' : IsLastMatch (cfg.workloadAccounts.set k (config_info_of info))
        info.AccountName k := isLastMatch_set hlm rfl
    have h2 := @update_account_config_file_of_match_force
      { cfg with workloadAccounts := cfg.workloadAccounts.set k (config_info_of info) }
      info k hlm'
    refine ⟨?_, ?_, ?_⟩
    · rw [h1, hD']
    · rw [hD', h2]
      simp [List.set_set]
    · intro _
      rw [hD']
      simp
  · push_neg at hm
    have h1 := update_account_config_file_of_no_match true hm
    have hD' : merge_result_file cfg info true
        = { cfg with workloadAccounts := cfg.workloadAccounts ++ [config_info_of info] } := by
      simp [merge_result_file, h1]
    have hlm' : IsLastMatch (cfg.workloadAccounts ++ [config_info_of info])
        info.AccountName cfg.workloadAccounts.length := isLastMatch_concat rfl
    have h2 := @update_account_config_file_of_match_force
      { cfg with workloadAccounts := cfg.workloadAccounts ++ [config_info_of info] }
      info cfg.workloadAccounts.length hlm'
    refine ⟨?_, ?_, ?_⟩
    · rw [h1, hD']
    · rw [hD', h2]
      simp [set_concat_length]
    · intro hex
      obtain ⟨e, hmem, hname⟩ := hex
      exact absurd hname (hm e hmem)

/-- C3 witness: the Finance scenario — the first forced merge succeeds, repeating
it returns the same document, and the overwrite preserved the list length. -/
theorem update_account_config_file_force_idempotent_witness :
    update_account_config_file sampleConfig sampleInfo true
      = Except.ok (merge_result_file sampleConfig sampleInfo true) ∧
    update_account_config_file (merge_result_file sampleConfig sampleInfo true) sampleInfo true
      = Except.ok (merge_result_file sampleConfig sampleInfo true) ∧
    (merge_result_file sampleConfig sampleInfo true).workloadAccounts.length
      = sampleConfig.workloadAccounts.length :=
  ⟨(update_account_config_file_force_idempotent sampleConfig sampleInfo).1,
   (update_account_config_file_force_idempotent sampleConfig sampleInfo).2.1,
   (update_account_config_file_force_idempotent sampleConfig sampleInfo).2.2
     ⟨sampleOldEntry, by decide⟩⟩

/-- C10 (frame): a successful merge changes at most the single `workloadAccounts`
position holding the (last) entry named like the new entry — overwriting it in
place, or appending when no name matches — and everything else survives: the other
top-level keys are byte-identical, and every entry whose name differs from the new
entry's is still at its old position. -/
theorem update_account_config_file_frame (cfg : AccountConfig) (info : AccountInfo)
    (force : Bool) (D' : AccountConfig)
    (h : update_account_config_file cfg info force = Except.ok D') :
    D'.otherTopLevel = cfg.otherTopLevel ∧
    ((∃ k, IsLastMatch cfg.workloadAccounts info.AccountName k ∧
        D'.workloadAccounts = cfg.workloadAccounts.set k (config_info_of info)) ∨
      ((∀ e ∈ cfg.workloadAccounts, e.name ≠ info.AccountName) ∧
        D'.workloadAccounts = cfg.workloadAccounts ++ [config_info_of info])) ∧
    (∀ (j : Nat) (e : AccountConfigEntry),
      cfg.workloadAccounts[j]? = some e → e.name ≠ info.AccountName →
      D'.workloadAccounts[j]? = some e) := by
  by_cases hm : ∃ e ∈ cfg.workloadAccounts, e.name = info.AccountName
  · obtain ⟨k, hlm⟩ := exists_last_match hm
    cases force with
    | false =>
      rw [update_account_config_file_of_match_noforce hlm] at h
      cases h
    | true =>
      rw [update_account_config_file_of_match_force hlm] at h
      injection h with h
      subst h
      refine ⟨rfl, Or.inl ⟨k, hlm, rfl⟩, ?_⟩
      intro j e hget hname
      obtain ⟨⟨ek, hek, hekname⟩, _⟩ := hlm
      have hjk : j ≠ k := by
        intro hjk
        subst hjk
        rw [hget] at hek
        cases hek
        exact hname hekname
      simpa [List.getElem?_set, if_neg (Ne.symm hjk)] using hget
  · push_neg at hm
    rw [update_account_config_file_of_no_match force hm] at h
    injection h with h
    subst h
    refine ⟨rfl, Or.inr ⟨hm, rfl⟩, ?_⟩
    intro j e hget _
    have hj : j < cfg.workloadAccounts.length := (List.getElem?_eq_some.mp hget).1
    rw [List.getElem?_append]
    simpa [hj] using hget

/-- C10 witness: the Finance scenario with `force_update = true` — the frame
theorem instantiated at the document the merge actually writes. -/
theorem update_account_config_file_frame_witness :
    (merge_result_file sampleConfig sampleInfo true).otherTopLevel
        = sampleConfig.otherTopLevel ∧
    ((∃ k, IsLastMatch sampleConfig.workloadAccounts sampleInfo.AccountName k ∧
        (merge_result_file sampleConfig sampleInfo true).workloadAccounts
          = sampleConfig.workloadAccounts.set k (config_info_of sampleInfo)) ∨
      ((∀ e ∈ sampleConfig.workloadAccounts, e.name ≠ sampleInfo.AccountName) ∧
        (merge_result_file sampleConfig sampleInfo true).workloadAccounts
          = sampleConfig.workloadAccounts ++ [config_info_of sampleInfo])) ∧
    (∀ (j : Nat) (e : AccountConfigEntry), sampleConfig.workloadAccounts[j]? = some e →
      e.name ≠ sampleInfo.AccountName →
      (merge_result_file sampleConfig sampleInfo true).workloadAccounts[j]? = some e) :=
  update_account_config_file_frame sampleConfig sampleInfo true
    (merge_result_file sampleConfig sampleInfo true) (by rfl)

/-- One entry of the organization-config `organizationalUnits` list; only the
`name` key is read by `validate_ou_in_config`. -/
structure OrgUnit where
  name : String
deriving DecidableEq, Repr

/-- The organization-config document as read by `validate_ou_in_config`. -/
structure OrgConfig where
  organizationalUnits : List OrgUnit
deriving DecidableEq, Repr

/-- Exception raised by `validate_ou_in_config` when the target OU is missing. -/
inductive OuError where
  | MissingOrganizationalUnitConfigException (target : String)
deriving DecidableEq, Repr

/-- Embedding of `validate_ou_in_config` (CreateAccount/helper.py, lines 208–227):
collect the names of the configured organizational units and raise
`MissingOrganizationalUnitConfigException` when the target OU is not among them. -/
def validate_ou_in_config (org_config : OrgConfig) (target_ou_name : String) :
    Except OuError Unit :=
  let config_orgs := org_config.organizationalUnits.map (fun org => org.name)
  if target_ou_name ∉ config_orgs then
    Except.error (OuError.MissingOrganizationalUnitConfigException target_ou_name)
  else
    Except.ok ()

/-- C4: `validate_ou_in_config` succeeds exactly for placement names carried by
some configured organizational unit and raises
`MissingOrganizationalUnitConfigException` for every other name. -/
theorem validate_ou_in_config_correct (org_config : OrgConfig) (target : String) :
    ((∃ ou ∈ org_config.organizationalUnits, ou.name = target) →
      validate_ou_in_config org_config target = Except.ok ()) ∧
    ((∀ ou ∈ org_config.organizationalUnits, ou.name ≠ target) →
      validate_ou_in_config org_config target
        = Except.error (OuError.MissingOrganizationalUnitConfigException target)) := by
  constructor
  · intro h
    obtain ⟨ou, hmem, hname⟩ := h
    have : target ∈ org_config.organizationalUnits.map (fun org => org.name) :=
      List.mem_map.mpr ⟨ou, hmem, hname⟩
    simp [validate_ou_in_config, this]
  · intro h
    have : target ∉ org_config.organizationalUnits.map (fun org => org.name) := by
      intro hmem
      obtain ⟨ou, hmem', hname⟩ := List.mem_map.mp hmem
      exact h ou hmem' hname
    simp [validate_ou_in_config, this]

/-- Catalog of valid placements used in the C4 witness. -/
def sampleOrgConfig : OrgConfig :=
  { organizationalUnits := [{ name := "Security" }, { name := "Workloads" }] }

/-- C4 witness: a present OU passes, an absent OU raises. -/
theorem validate_ou_in_config_correct_witness :
    validate_ou_in_config sampleOrgConfig "Workloads" = Except.ok () ∧
    validate_ou_in_config sampleOrgConfig "NewOU"
      = Except.error (OuError.MissingOrganizationalUnitConfigException "NewOU") :=
  ⟨(validate_ou_in_config_correct sampleOrgConfig "Workloads").1 (by decide),
   (validate_ou_in_config_correct sampleOrgConfig "NewOU").2 (by decide)⟩

/-- One element of the `status` list assembled by the ValidateResources handler:
the `Service`, `Status` and `Message` keys of the dicts returned by the individual
checks (statuses are plain strings in the source). -/
structure ValidationResult where
  Service : String
  Status : String
  Message : String
deriving DecidableEq, Repr

/-- The membership test of ValidateResources/main.py line 99: Python
`item['Status'] in ('InProgress', 'RUNNING', 'NOT_STARTED')`. -/
def statusInProgress (r : ValidationResult) : Bool :=
  r.Status == "InProgress" || r.Status == "RUNNING" || r.Status == "NOT_STARTED"

/-- Aggregation step of the ValidateResources `lambda_handler` (main.py, lines
98–106): `next((item for item in status if ...), None)` yields the first
in-progress entry; a found entry (a non-empty dict, hence truthy) selects
`'InProgress'`, otherwise `'COMPLETED'` is written to the payload. -/
def aggregate_validation_status (status : List ValidationResult) : String :=
  match status.find? statusInProgress with
  | some _ => "InProgress"
  | none => "COMPLETED"

/-- C5: over the spec's ValidationResult domain (statuses `Passed`, `Failed`,
`InProgress` — a superset of what this repository's checks produce), the aggregate
status is `InProgress` iff some individual result is `InProgress`, and otherwise
`COMPLETED`, however many results are `Failed`. -/
theorem aggregate_validation_status_correct (status : List ValidationResult)
    (hdom : ∀ r ∈ status,
      r.Status = "Passed" ∨ r.Status = "Failed" ∨ r.Status = "InProgress") :
    (aggregate_validation_status status = "InProgress" ↔
      ∃ r ∈ status, r.Status = "InProgress") ∧
    ((∀ r ∈ status, r.Status ≠ "InProgress") →
      aggregate_validation_status status = "COMPLETED") := by
  have hiff : ∀ r ∈ status, (statusInProgress r = true ↔ r.Status = "InProgress") := by
    intro r hr
    constructor
    · intro hp
      rcases hdom r hr with h | h | h <;> simp [statusInProgress, h] at hp ⊢
    · intro h
      simp [statusInProgress, h]
  constructor
  · constructor
    · intro hagg
      cases hfind : status.find? statusInProgress with
      | none => simp [aggregate_validation_status, hfind] at hagg
      | some r =>
        have hmem := List.mem_of_find?_eq_some hfind
        exact ⟨r, hmem, (hiff r hmem).mp (List.find?_some hfind)⟩
    · intro ⟨r, hmem, hr⟩
      cases hfind : status.find? statusInProgress with
      | none =>
        have := List.find?_eq_none.mp hfind r hmem
        simp [(hiff r hmem).mpr hr] at this
      | some r' => simp [aggregate_validation_status, hfind]
  · intro h
    have hfind : status.find? statusInProgress = none := by
      rw [List.find?_eq_none]
      intro r hmem hp
      exact h r hmem ((hiff r hmem).mp hp)
    simp [aggregate_validation_status, hfind]

/-- C5 witness list with an in-progress entry among failures. -/
def sampleStatusInProgress : List ValidationResult :=
  [{ Service := "IamRoleValidation", Status := "Failed", Message := "role missing" },
   { Service := "SsmParameterValidation", Status := "InProgress", Message := "waiting" }]

/-- C5 witness list with only terminal entries, including a failure. -/
def sampleStatusTerminal : List ValidationResult :=
  [{ Service := "IamRoleValidation", Status := "Failed", Message := "role missing" },
   { Service := "AccountInOuValidation", Status := "Passed", Message := "" }]

/-- C5 witness: an `InProgress` entry drives the aggregate to `InProgress`, while
a list with failures but nothing in progress aggregates to `COMPLETED`. -/
theorem aggregate_validation_status_correct_witness :
    aggregate_validation_status sampleStatusInProgress = "InProgress" ∧
    aggregate_validation_status sampleStatusTerminal = "COMPLETED" :=
  ⟨(aggregate_validation_status_correct sampleStatusInProgress (by decide)).1.mpr
      (by decide),
   (aggregate_validation_status_correct sampleStatusTerminal (by decide)).2 (by decide)⟩

/-- Outcome of one `get_pipeline_execution` call: the execution's status string,
or the `PipelineExecutionNotFoundException`. -/
inductive PollResponse where
  | notFound
  | status (s : String)
deriving DecidableEq, Repr

/-- `check_delay` (CreateAccount/helper.py, line 28): the number of seconds slept
between not-found retries of the status lookup. -/
def check_delay : Nat := 5

/-- The `while True` loop of `HelperCodePipeline.status` (CreateAccount/helper.py,
lines 296–319): `responses n` is the outcome of the n-th `get_pipeline_execution`
call; any successfully returned status ends the loop at once, while on the
not-found exception the loop re-raises when `_attempts >= 5` and otherwise sleeps
`check_delay()` seconds and retries with `_attempts + 1`. The result carries the
status together with the final value of `_attempts` (the number of retries). -/
def pipeline_status_loop (responses : Nat → PollResponse) (call attempts : Nat) :
    Except String (String × Nat) :=
  match responses call with
  | PollResponse.status s => Except.ok (s, attempts)
  | PollResponse.notFound =>
    if h : attempts ≥ 5 then Except.error "PipelineExecutionNotFoundException"
    else pipeline_status_loop responses (call + 1) (attempts + 1)
termination_by 5 - attempts
decreasing_by omega

/-- `HelperCodePipeline.status`, started as the source starts it: first call, zero
attempts so far. -/
def HelperCodePipeline_status (responses : Nat → PollResponse) :
    Except String (String × Nat) :=
  pipeline_status_loop responses 0 0

theorem pipeline_status_loop_status (responses : Nat → PollResponse)
    (call attempts : Nat) (s : String) (hc : responses call = PollResponse.status s) :
    pipeline_status_loop responses call attempts = Except.ok (s, attempts) := by
  rw [pipeline_status_loop, hc]

theorem pipeline_status_loop_raise (responses : Nat → PollResponse)
    (call attempts : Nat) (hc : responses call = PollResponse.notFound)
    (ha : 5 ≤ attempts) :
    pipeline_status_loop responses call attempts
      = Except.error "PipelineExecutionNotFoundException" := by
  rw [pipeline_status_loop, hc]
  simp [ha]

theorem pipeline_status_loop_retry (responses : Nat → PollResponse)
    (call attempts : Nat) (hc : responses call = PollResponse.notFound)
    (ha : attempts < 5) :
    pipeline_status_loop responses call attempts
      = pipeline_status_loop responses (call + 1) (attempts + 1) := by
  rw [pipeline_status_loop, hc]
  simp [Nat.not_le.mpr ha]

theorem pipeline_status_loop_ok_of_failures (responses : Nat → PollResponse)
    (d : Nat) : ∀ (call attempts : Nat) (s : String), attempts + d ≤ 5 →
    (∀ i, i < d → responses (call + i) = PollResponse.notFound) →
    responses (call + d) = PollResponse.status s →
    pipeline_status_loop responses call attempts = Except.ok (s, attempts + d) := by
  induction d with
  | zero =>
    intro call attempts s _ _ hs
    simpa using pipeline_status_loop_status responses call attempts s (by simpa using hs)
  | succ d ih =>
    intro call attempts s hle hnf hs
    have h0 : responses call = PollResponse.notFound := by simpa using hnf 0 (by omega)
    have harith : attempts + (d + 1) = attempts + 1 + d := by omega
    rw [harith, pipeline_status_loop_retry responses call attempts h0 (by omega)]
    exact ih (call + 1) (attempts + 1) s (by omega)
      (fun i hi => by
        have := hnf (i + 1) (by omega)
        simpa [Nat.add_assoc, Nat.add_comm 1 i] using this)
      (by
        have heq : call + 1 + d = call + (d + 1) := by omega
        rw [heq, hs])

theorem pipeline_status_loop_err_of_failures (responses : Nat → PollResponse)
    (d : Nat) : ∀ (call attempts : Nat), attempts + d = 5 →
    (∀ i, i ≤ d → responses (call + i) = PollResponse.notFound) →
    pipeline_status_loop responses call attempts
      = Except.error "PipelineExecutionNotFoundException" := by
  induction d with
  | zero =>
    intro call attempts h5 hnf
    exact pipeline_status_loop_raise responses call attempts
      (by simpa using hnf 0 (by omega)) (by omega)
  | succ d ih =>
    intro call attempts h5 hnf
    have h0 : responses call = PollResponse.notFound := by simpa using hnf 0 (by omega)
    rw [pipeline_status_loop_retry responses call attempts h0 (by omega)]
    exact ih (call + 1) (attempts + 1) (by omega)
      (fun i hi => by
        have := hnf (i + 1) (by omega)
        simpa [Nat.add_assoc, Nat.add_comm 1 i] using this)

/-- C6: the deployment status poller sleeps a fixed `check_delay() = 5` seconds
between retries; when the first six lookups (the initial call plus the retry
ceiling of 5) all raise not-found it re-raises the not-found error; and when the
k-th lookup (k ≤ 5) returns a status after k not-found responses — in particular a
`Succeeded` — it returns that status at once with exactly k retries performed. -/
theorem HelperCodePipeline_status_correct (responses : Nat → PollResponse) :
    check_delay = 5 ∧
    ((∀ i, i ≤ 5 → responses i = PollResponse.notFound) →
      HelperCodePipeline_status responses
        = Except.error "PipelineExecutionNotFoundException") ∧
    (∀ k s, k ≤ 5 → (∀ i, i < k → responses i = PollResponse.notFound) →
      responses k = PollResponse.status s →
      HelperCodePipeline_status responses = Except.ok (s, k)) := by
  refine ⟨rfl, ?_, ?_⟩
  · intro h
    exact pipeline_status_loop_err_of_failures responses 5 0 0 (by omega)
      (fun i hi => by simpa using h i (by omega))
  · intro k s hk hnf hs
    have := pipeline_status_loop_ok_of_failures responses k 0 0 s (by omega)
      (fun i hi => by simpa using hnf i hi) (by simpa using hs)
    simpa using this

/-- Response sequence of the C6 scenario: two not-found lookups, then `Succeeded`. -/
def samplePollResponses : Nat → PollResponse
  | 0 => PollResponse.notFound
  | 1 => PollResponse.notFound
  | _ => PollResponse.status "Succeeded"

/-- Response sequence in which the execution never becomes visible. -/
def sampleAllNotFound : Nat → PollResponse := fun _ => PollResponse.notFound

/-- C6 witness: the `[NotFound, NotFound, Succeeded]` sequence returns `Succeeded`
after exactly 2 retries, and a never-found execution raises after the ceiling. -/
theorem HelperCodePipeline_status_correct_witness :
    HelperCodePipeline_status samplePollResponses = Except.ok ("Succeeded", 2) ∧
    HelperCodePipeline_status sampleAllNotFound
      = Except.error "PipelineExecutionNotFoundException" :=
  ⟨(HelperCodePipeline_status_correct samplePollResponses).2.2 2 "Succeeded"
      (by omega) (fun i hi => by interval_cases i <;> rfl) rfl,
   (HelperCodePipeline_status_correct sampleAllNotFound).2.1 (fun i _ => rfl)⟩

/-- The fields of a Service Catalog provisioned product read by
`get_service_catalog_info`. -/
structure ProvisionedProduct where
  Status : String
  PhysicalId : String
  Id : String
  Name : String
deriving DecidableEq, Repr

/-- The two `ServiceCatalogException` raises of `get_service_catalog_info`: a
product found in a terminal error state, or no matching product at all. -/
inductive ScError where
  | productProblem (pp : ProvisionedProduct)
  | notFound
deriving DecidableEq, Repr

/-- The `outputs` dict returned by `get_service_catalog_info` for an `AVAILABLE`
product. -/
structure ScOutputs where
  AccountId : String
  ProvisionedProductId : String
  ProvisionedProductName : String
deriving DecidableEq, Repr

/-- `search_provisioned_products` (GetAccountStatus/main.py, lines 29–61): the
first element of the name-filtered search result, or `None` when the result list
is empty. -/
def search_provisioned_products (found : List ProvisionedProduct) :
    Option ProvisionedProduct :=
  found.head?

/-- Embedding of `get_service_catalog_info` (GetAccountStatus/main.py, lines
63–88). A found product in `TAINTED`/`ERROR` state raises the hard
`ServiceCatalogException`; an `AVAILABLE` product returns the account id and the
provisioned-product identifiers; a found product in any other state falls through
both `if`s and the Python function returns `None`; an empty search raises the
distinct not-found `ServiceCatalogException`. -/
def get_service_catalog_info (found : List ProvisionedProduct) :
    Except ScError (Option ScOutputs) :=
  match search_provisioned_products found with
  | some pp =>
    if pp.Status = "TAINTED" ∨ pp.Status = "ERROR" then
      Except.error (ScError.productProblem pp)
    else if pp.Status = "AVAILABLE" then
      Except.ok (some { AccountId := pp.PhysicalId, ProvisionedProductId := pp.Id
                        ProvisionedProductName := pp.Name })
    else
      Except.ok none
  | none => Except.error ScError.notFound

/-- C7: the Provisioning Status Resolver raises the hard product-problem error for
a matching product in `TAINTED` or `ERROR` state, returns the provisioned-product
id, name and physical (account) id for an `AVAILABLE` product, and raises the
distinct not-found error when the search matches nothing. -/
theorem get_service_catalog_info_correct (found : List ProvisionedProduct) :
    (∀ pp, search_provisioned_products found = some pp →
      (pp.Status = "TAINTED" ∨ pp.Status = "ERROR") →
      get_service_catalog_info found = Except.error (ScError.productProblem pp)) ∧
    (∀ pp, search_provisioned_products found = some pp → pp.Status = "AVAILABLE" →
      get_service_catalog_info found
        = Except.ok (some { AccountId := pp.PhysicalId, ProvisionedProductId := pp.Id
                            ProvisionedProductName := pp.Name })) ∧
    (found = [] → get_service_catalog_info found = Except.error ScError.notFound) := by
  refine ⟨?_, ?_, ?_⟩
  · intro pp hpp herr
    simp [get_service_catalog_info, hpp, herr]
  · intro pp hpp hav
    have hne : ¬(pp.Status = "TAINTED" ∨ pp.Status = "ERROR") := by
      rw [hav]
      decide
    simp [get_service_catalog_info, hpp, hne, hav]
  · intro hempty
    subst hempty
    rfl

/-- Provisioned product of the C7 witness, in the hard-error state. -/
def sampleTaintedProduct : ProvisionedProduct :=
  { Status := "TAINTED", PhysicalId := "111122223333", Id := "pp-abc", Name := "Finance" }

/-- Provisioned product of the C7 witness, available. -/
def sampleAvailableProduct : ProvisionedProduct :=
  { Status := "AVAILABLE", PhysicalId := "111122223333", Id := "pp-abc", Name := "Finance" }

/-- C7 witness: the three branches at concrete search results. -/
theorem get_service_catalog_info_correct_witness :
    get_service_catalog_info [sampleTaintedProduct]
      = Except.error (ScError.productProblem sampleTaintedProduct) ∧
    get_service_catalog_info [sampleAvailableProduct]
      = Except.ok (some { AccountId := "111122223333", ProvisionedProductId := "pp-abc"
                          ProvisionedProductName := "Finance" }) ∧
    get_service_catalog_info [] = Except.error ScError.notFound :=
  ⟨(get_service_catalog_info_correct [sampleTaintedProduct]).1 sampleTaintedProduct
      rfl (Or.inl rfl),
   (get_service_catalog_info_correct [sampleAvailableProduct]).2.1 sampleAvailableProduct
      rfl rfl,
   (get_service_catalog_info_correct []).2.2 rfl⟩

/-- Decidable equality for `Except`, needed to evaluate handler results. -/
def exceptDecEq {ε α : Type} [DecidableEq ε] [DecidableEq α] :
    (a b : Except ε α) → Decidable (a = b)
  | Except.ok a, Except.ok b =>
    if h : a = b then Decidable.isTrue (by rw [h])
    else Decidable.isFalse (by intro he; cases he; exact h rfl)
  | Except.error e, Except.error f =>
    if h : e = f then Decidable.isTrue (by rw [h])
    else Decidable.isFalse (by intro he; cases he; exact h rfl)
  | Except.ok _, Except.error _ => Decidable.isFalse (by intro he; cases he)
  | Except.error _, Except.ok _ => Decidable.isFalse (by intro he; cases he)

instance {ε α : Type} [DecidableEq ε] [DecidableEq α] : DecidableEq (Except ε α) :=
  exceptDecEq

/-- The `AzureAD` sub-dict of the payload threaded through
ValidateAdGroupSyncToSSO: the wait flag and the wait counter. -/
structure AzureADState where
  WaitForAdSync : Option Bool
  WaitCount : Nat
deriving DecidableEq, Repr

/-- `WAIT_LIMIT` (ValidateAdGroupSyncToSSO/main.py, line 18): default of the
`WAIT_LIMIT_IN_MINUTES` environment variable. -/
def WAIT_LIMIT : Nat := 15

/-- The `ExceededWaitTimeLimit` exception, carrying the configured limit. -/
inductive AdSyncError where
  | ExceededWaitTimeLimit (limit : Nat)
deriving DecidableEq, Repr

/-- Core of the ValidateAdGroupSyncToSSO `lambda_handler` (main.py, lines 25–78).
`allGroupsVisible` is whether every configured directory group resolved in the
identity store (`lookup_group_guid_from_sso` raises
`ObjectNotFoundInIdentityCenter` when one is missing); `azure` is the payload's
`AzureAD` entry, absent on the first invocation and then initialised with wait
count 0. When a group is missing the handler sets the wait flag, increments the
wait count, and raises `ExceededWaitTimeLimit` as soon as the incremented count
exceeds `WAIT_LIMIT`; otherwise it returns the updated payload. (The outermost
boundary of the handler then re-wraps any raise, as modelled for C9.) -/
def validate_ad_group_sync (allGroupsVisible : Bool) (azure : Option AzureADState) :
    Except AdSyncError AzureADState :=
  let st := azure.getD { WaitForAdSync := none, WaitCount := 0 }
  if allGroupsVisible then
    Except.ok { st with WaitForAdSync := some false }
  else
    let newCount := st.WaitCount + 1
    if newCount > WAIT_LIMIT then
      Except.error (AdSyncError.ExceededWaitTimeLimit WAIT_LIMIT)
    else
      Except.ok { WaitForAdSync := some true, WaitCount := newCount }

/-- N successive invocations of the handler in which some directory group is still
missing, threading the payload exactly as the Step Function loop does: the first
invocation sees no `AzureAD` entry, each later one sees the previous payload. -/
def repeated_ad_sync : Nat → Except AdSyncError AzureADState
  | 0 => validate_ad_group_sync false none
  | n + 1 =>
    match repeated_ad_sync n with
    | Except.ok st => validate_ad_group_sync false (some st)
    | Except.error e => Except.error e

/-- C8: with a directory group still invisible, an invocation increments the wait
counter by exactly 1 and succeeds while the incremented counter stays within the
configured limit of 15, and raises `ExceededWaitTimeLimit` as soon as it exceeds
it; consequently the run's successive invocations reach wait counts 1..15 without
error and the 16th raises the terminal timeout. -/
theorem validate_ad_group_sync_wait_limit (st : AzureADState) :
    WAIT_LIMIT = 15 ∧
    (st.WaitCount + 1 ≤ 15 →
      validate_ad_group_sync false (some st)
        = Except.ok { WaitForAdSync := some true, WaitCount := st.WaitCount + 1 }) ∧
    (15 < st.WaitCount + 1 →
      validate_ad_group_sync false (some st)
        = Except.error (AdSyncError.ExceededWaitTimeLimit 15)) ∧
    (∀ n, n < 15 →
      repeated_ad_sync n = Except.ok { WaitForAdSync := some true, WaitCount := n + 1 }) ∧
    repeated_ad_sync 15 = Except.error (AdSyncError.ExceededWaitTimeLimit 15) := by
  refine ⟨rfl, ?_, ?_, by decide, by decide⟩
  · intro h
    unfold validate_ad_group_sync
    simp only [WAIT_LIMIT, Bool.false_eq_true, if_false, Option.getD_some]
    rw [if_neg (by omega)]
  · intro h
    unfold validate_ad_group_sync
    simp only [WAIT_LIMIT, Bool.false_eq_true, if_false, Option.getD_some]
    rw [if_pos (by omega)]

/-- C8 witness: at wait count 14 the next invocation succeeds with count 15, at
count 15 it raises; the threaded run confirms counts 1..15 then the timeout. -/
theorem validate_ad_group_sync_wait_limit_witness :
    validate_ad_group_sync false (some { WaitForAdSync := some true, WaitCount := 14 })
      = Except.ok { WaitForAdSync := some true, WaitCount := 15 } ∧
    validate_ad_group_sync false (some { WaitForAdSync := some true, WaitCount := 15 })
      = Except.error (AdSyncError.ExceededWaitTimeLimit 15) ∧
    repeated_ad_sync 14 = Except.ok { WaitForAdSync := some true, WaitCount := 15 } ∧
    repeated_ad_sync 15 = Except.error (AdSyncError.ExceededWaitTimeLimit 15) :=
  ⟨(validate_ad_group_sync_wait_limit { WaitForAdSync := some true, WaitCount := 14 }).2.1
      (by decide),
   (validate_ad_group_sync_wait_limit { WaitForAdSync := some true, WaitCount := 15 }).2.2.1
      (by decide),
   (validate_ad_group_sync_wait_limit { WaitForAdSync := none, WaitCount := 0 }).2.2.2.1
      14 (by omega),
   (validate_ad_group_sync_wait_limit { WaitForAdSync := none, WaitCount := 0 }).2.2.2.2⟩

/-- Uniform task-failure error: the `TypeError(str(e))` raised at the outermost
`except Exception` boundary of every state handler, carrying the original
exception's message. -/
structure TaskFailure where
  message : String
deriving DecidableEq, Repr

/-- The `except Exception as e: raise TypeError(str(e)) from e` boundary shared by
the step-function lambda handlers: a successful core result passes through, any
raise is re-raised as the uniform `TaskFailure` with the original message. -/
def wrap_state_exceptions {α : Type} (core : Except String α) : Except TaskFailure α :=
  match core with
  | Except.ok a => Except.ok a
  | Except.error msg => Except.error { message := msg }

/-- Externally observable effect of the Respond (ReturnResponse) state. -/
inductive RespondEffect where
  | snsSent (error_msg : String) (account_name : String)
deriving DecidableEq, Repr

/-- Input of the ReturnResponse `lambda_handler`: `event['StageInput'].get('Error')`
(absent, or a possibly empty string — Python truthiness treats `''` like absent),
the `errorMessage` extracted from the JSON `Cause`, the account name from
`OriginalInput`, and the `AccountId` read on the success path. -/
structure ReturnResponseInput where
  ErrorName : Option String
  CauseErrorMessage : String
  AccountName : String
  AccountId : String
deriving DecidableEq, Repr

/-- Python truthiness of `event['StageInput'].get('Error')`. -/
def truthyError (inp : ReturnResponseInput) : Bool :=
  match inp.ErrorName with
  | some e => !(e == "")
  | none => false

/-- Text of the `StepFunctionTaskFailureException` raised by ReturnResponse,
prefixing the extracted error message. -/
def task_failure_text (error_msg : String) : String :=
  "A task in the account creation step function failed: " ++ error_msg

/-- Embedding of the ReturnResponse `lambda_handler` (ReturnResponse/main.py,
lines 22–52). When the input carries an error the handler sends the SNS failure
notification and then raises `StepFunctionTaskFailureException`, which the
outermost boundary re-raises as the uniform `TaskFailure`; otherwise it returns
the account id. The first component records the effects performed before the
handler finished, in order. -/
def return_response (inp : ReturnResponseInput) :
    List RespondEffect × Except TaskFailure String :=
  if truthyError inp then
    ([RespondEffect.snsSent inp.CauseErrorMessage inp.AccountName],
      wrap_state_exceptions (Except.error (task_failure_text inp.CauseErrorMessage)))
  else
    ([], wrap_state_exceptions (Except.ok inp.AccountId))

/-- The `AccountInfo` dict as read by CheckForRunningProcesses (only the
`ForceUpdate` key matters to the handler's own output). -/
structure CheckAccountInfo where
  ForceUpdate : Option String
deriving DecidableEq, Repr

/-- Input event of CheckForRunningProcesses: `event['Payload']['AccountInfo']`
when a previous attempt left a payload, else `event['AccountInfo']`. -/
structure CheckEvent where
  PayloadAccountInfo : Option CheckAccountInfo
  AccountInfo : Option CheckAccountInfo
deriving DecidableEq, Repr

/-- Payload built by CheckForRunningProcesses: the two optional blocking-process
names and the stringified `ForceUpdate` flag. -/
structure CheckProcessesPayload where
  codeBuildBlocker : Option String
  codePipelineBlocker : Option String
  AccountInfo : CheckAccountInfo
  ForceUpdate : String
deriving DecidableEq, Repr

/-- Body of the CheckForRunningProcesses `lambda_handler` (main.py, lines 18–67)
inside its `try`: pick the account info (a `KeyError` escapes when neither key is
present), record the decommission CodeBuild project when set and running, record
the LZA pipeline when set and running, and default `ForceUpdate` to `'false'`. -/
def check_for_running_processes_core (ev : CheckEvent)
    (decommission_project : Option String) (decommission_running : Bool)
    (lza_pipeline : Option String) (pipeline_running : Bool) :
    Except String CheckProcessesPayload :=
  match (match ev.PayloadAccountInfo with
         | some info => Except.ok info
         | none =>
           match ev.AccountInfo with
           | some info => Except.ok info
           | none => Except.error "KeyError: AccountInfo") with
  | Except.error e => Except.error e
  | Except.ok account_info =>
    Except.ok
      { codeBuildBlocker :=
          match decommission_project with
          | some p => if decommission_running then some p else none
          | none => none
        codePipelineBlocker :=
          match lza_pipeline with
          | some p => if pipeline_running then some p else none
          | none => none
        AccountInfo := account_info
        ForceUpdate := account_info.ForceUpdate.getD "false" }

/-- The CheckForRunningProcesses handler with its outermost wrapping boundary. -/
def check_for_running_processes (ev : CheckEvent)
    (decommission_project : Option String) (decommission_running : Bool)
    (lza_pipeline : Option String) (pipeline_running : Bool) :
    Except TaskFailure CheckProcessesPayload :=
  wrap_state_exceptions
    (check_for_running_processes_core ev decommission_project decommission_running
      lza_pipeline pipeline_running)

theorem containsSubL_append_left (pre l : List Char) :
    containsSubL l (pre ++ l) = true := by
  induction pre with
  | nil => simpa using containsSubL_refl l
  | cons c cs ih => simp [containsSubL, ih]

theorem strContains_append_left (x y : String) : strContains (x ++ y) y = true := by
  have hdata : (x ++ y).toList = x.toList ++ y.toList := String.data_append x y
  unfold strContains
  rw [hdata]
  exact containsSubL_append_left x.toList y.toList

/-- C9: the embedded state handlers never swallow a terminal error — the
CheckForRunningProcesses handler re-raises any core exception as the uniform
`TaskFailure` carrying the original message verbatim — and the Respond state, on
an error-carrying input, emits exactly one SNS failure notification (carrying the
original error message) before re-raising a `TaskFailure` whose message contains
that original error message as a substring. -/
theorem state_failure_wrapped_and_notified :
    (∀ (ev : CheckEvent) (dp : Option String) (dr : Bool) (lp : Option String)
        (pr : Bool) (msg : String),
      check_for_running_processes_core ev dp dr lp pr = Except.error msg →
      check_for_running_processes ev dp dr lp pr = Except.error { message := msg }) ∧
    (∀ inp : ReturnResponseInput, truthyError inp = true →
      (return_response inp).1
          = [RespondEffect.snsSent inp.CauseErrorMessage inp.AccountName] ∧
      ∃ m, (return_response inp).2 = Except.error { message := m } ∧
        strContains m inp.CauseErrorMessage = true) ∧
    (∀ inp : ReturnResponseInput, truthyError inp = false →
      (return_response inp).2 = Except.ok inp.AccountId) := by
  refine ⟨?_, ?_, ?_⟩
  · intro ev dp dr lp pr msg herr
    simp [check_for_running_processes, wrap_state_exceptions, herr]
  · intro inp htruthy
    refine ⟨by simp [return_response, htruthy], ?_⟩
    refine ⟨task_failure_text inp.CauseErrorMessage, ?_, ?_⟩
    · simp [return_response, htruthy, wrap_state_exceptions]
    · exact strContains_append_left _ _
  · intro inp hfalsy
    simp [return_response, hfalsy, wrap_state_exceptions]

/-- Respond input of the C9 witness: a failed stage with a concrete cause. -/
def sampleRespondError : ReturnResponseInput :=
  { ErrorName := some "States.TaskFailed"
    CauseErrorMessage := "Account with name Finance already exists"
    AccountName := "Finance", AccountId := "" }

/-- Check event of the C9 witness: neither `Payload` nor `AccountInfo` present. -/
def sampleCheckEventNoInfo : CheckEvent :=
  { PayloadAccountInfo := none, AccountInfo := none }

/-- C9 witness: the KeyError of a malformed event surfaces as the uniform wrapped
failure, and the error-carrying Respond input produces exactly the notification
and then a wrapped failure containing the original message. -/
theorem state_failure_wrapped_and_notified_witness :
    check_for_running_processes sampleCheckEventNoInfo none false none false
      = Except.error { message := "KeyError: AccountInfo" } ∧
    (return_response sampleRespondError).1
      = [RespondEffect.snsSent "Account with name Finance already exists" "Finance"] ∧
    (∃ m, (return_response sampleRespondError).2 = Except.error { message := m } ∧
      strContains m sampleRespondError.CauseErrorMessage = true) :=
  ⟨state_failure_wrapped_and_notified.1 sampleCheckEventNoInfo none false none false
      "KeyError: AccountInfo" rfl,
   (state_failure_wrapped_and_notified.2.1 sampleRespondError rfl).1,
   (state_failure_wrapped_and_notified.2.1 sampleRespondError rfl).2⟩

end LzaWorkflow
